import Mathlib

/-!
Shallow embedding of the blog-list component (`src/js/BlogList.js`).

The component's list pipeline (`applyFiltersAndSorting`) is embedded as pure
functions over a `Blog` record type; JavaScript-specific value semantics
(falsy defaults via `||`, `NaN` coercion in `Array.prototype.sort`
comparators, truthiness of strings) are modelled explicitly.  The host's
date parser (`new Date(string)`) and date formatter are external
capabilities and enter as parameters (`parse`, `fmtDate`); `none` models an
invalid date (`NaN` timestamp).  Array aliasing and in-place mutation in
`applyFiltersAndSorting` are modelled separately with an explicit heap of
array contents.  The load-and-render control flow of `init`/`fetchData`/
`showError` is embedded over an explicit fetch-outcome type and a small UI
state record.
-/

/-- One blog record; optional fields model possibly-absent JSON properties. -/
structure Blog where
  title : Option String
  content : Option String
  category : Option String
  reading_time : Option Int
  published_date : Option String
  author : Option String
  image : Option String
deriving DecidableEq

/-- JavaScript `String.prototype.toLowerCase`, modelled characterwise. -/
def jsToLower (s : String) : String := ⟨s.data.map Char.toLower⟩

/-- `needle` occurs as a contiguous substring of `hay`. -/
def containsSub (hay needle : List Char) : Bool :=
  List.isPrefixOf needle hay ||
    match hay with
    | [] => false
    | _ :: t => containsSub t needle

/-- JavaScript `String.prototype.includes`. -/
def jsIncludes (s sub : String) : Bool := containsSub s.data sub.data

/-- JavaScript `x || d` for an optional string (absent and `""` are falsy). -/
def jsOrStr (v : Option String) (d : String) : String :=
  match v with
  | some s => if s = "" then d else s
  | none => d

/-- JavaScript `x || d` for an optional number (absent and `0` are falsy). -/
def jsOrInt (v : Option Int) (d : Int) : Int :=
  match v with
  | some n => if n = 0 then d else n
  | none => d

/-- Template interpolation `${v}` of a possibly-absent string field. -/
def jsInterp (v : Option String) : String :=
  match v with
  | some s => s
  | none => "undefined"

/-- One insertion step of the stable sort modelling `Array.prototype.sort`:
the earlier element `a` is placed before the first element `b` it does not
compare after (`cmp a b ≤ 0` keeps `a` first, preserving order on ties). -/
def jsInsert (cmp : α → α → Int) (a : α) : List α → List α
  | [] => [a]
  | b :: l => if cmp a b ≤ 0 then a :: b :: l else b :: jsInsert cmp a l

/-- Stable comparator sort modelling `Array.prototype.sort(cmp)` (ECMAScript
mandates a stable sort; the algorithm is insertion sort, whose output for a
consistent comparator is the unique stable reordering). -/
def jsSort (cmp : α → α → Int) : List α → List α
  | [] => []
  | a :: l => jsInsert cmp a (jsSort cmp l)

/-- `new Date(blog.published_date).getTime()` under the host parser `parse`;
`none` models a `NaN` timestamp (absent field or unparseable string). -/
def jsDate (parse : String → Option Int) (b : Blog) : Option Int :=
  match b.published_date with
  | some s => parse s
  | none => none

/-- The `'date'` comparator
`new Date(b.published_date) - new Date(a.published_date)`: when either
timestamp is `NaN` the difference is `NaN`, which ECMAScript `SortCompare`
coerces to `+0`. -/
def dateCmp (parse : String → Option Int) (a b : Blog) : Int :=
  match jsDate parse b, jsDate parse a with
  | some tb, some ta => tb - ta
  | _, _ => 0

/-- Models `String.prototype.localeCompare` by a total lexicographic order on
strings (the host's locale order; only the sign of the result matters). -/
def strCmp (s t : String) : Int :=
  match compare s t with
  | .lt => -1
  | .eq => 0
  | .gt => 1

/-- The comparator selected by `switch (sortType)` inside
`applyFiltersAndSorting` (`default` returns 0). -/
def blogCmp (parse : String → Option Int) (sortType : String) (a b : Blog) : Int :=
  if sortType = "date" then dateCmp parse a b
  else if sortType = "reading_time" then
    jsOrInt a.reading_time 0 - jsOrInt b.reading_time 0
  else if sortType = "category" then
    strCmp (jsOrStr a.category "") (jsOrStr b.category "")
  else 0

/-- The search predicate of step 1 of `applyFiltersAndSorting`:
`(blog.title || '').toLowerCase().includes(searchTerm)`. -/
def searchKeep (searchTerm : String) (blog : Blog) : Bool :=
  jsIncludes (jsToLower (jsOrStr blog.title "")) searchTerm

/-- The category predicate of step 2: `blog.category === categoryFilter`
(strict equality; an absent category never matches). -/
def categoryKeep (categoryFilter : String) (blog : Blog) : Bool :=
  blog.category == some categoryFilter

/-- Step 1 of `applyFiltersAndSorting`: lower-case the search box value and
filter by title when the result is truthy (non-empty). -/
def searchStep (items : List Blog) (searchValue : String) : List Blog :=
  let searchTerm := jsToLower searchValue
  if searchTerm ≠ "" then items.filter (searchKeep searchTerm) else items

/-- Step 2: filter by category when the select value is truthy. -/
def categoryStep (items : List Blog) (filterValue : String) : List Blog :=
  if filterValue ≠ "" then items.filter (categoryKeep filterValue) else items

/-- Step 3: sort with the selected comparator when the sort value is truthy. -/
def sortStep (parse : String → Option Int) (items : List Blog)
    (sortValue : String) : List Blog :=
  if sortValue ≠ "" then jsSort (blogCmp parse sortValue) items else items

/-- `applyFiltersAndSorting` as the value stored into `this.filteredItems`:
search filter, then category filter, then sort, applied to a copy of
`this.items`. -/
def applyFiltersAndSorting (parse : String → Option Int) (items : List Blog)
    (searchValue filterValue sortValue : String) : List Blog :=
  sortStep parse (categoryStep (searchStep items searchValue) filterValue) sortValue

/-- The slice computed by `render`:
`this.filteredItems.slice(0, this.page * this.perPage)`. -/
def renderSlice (filteredItems : List Blog) (page perPage : Nat) : List Blog :=
  filteredItems.take (page * perPage)

/-- JavaScript `content.substring(0, 150)`. -/
def excerpt (content : String) : String := ⟨content.data.take 150⟩

/-- The reading-time span of a blog card:
`${item.reading_time || 5} min read`. -/
def readingTimeSpan (item : Blog) : String :=
  "<span class=\"blog-reading-time\">" ++ toString (jsOrInt item.reading_time 5)
    ++ " min read</span>"

/-- One blog card of `render`'s template (insignificant template whitespace
dropped); `fmtDate` models `new Date(...).toLocaleDateString()`. -/
def blogCard (fmtDate : Option String → String) (item : Blog) : String :=
  "<article class=\"blog-card\">" ++
    (match item.image with
     | some img =>
        if img = "" then ""
        else "<img src=\"" ++ img ++ "\" alt=\"" ++ jsInterp item.title
          ++ "\" class=\"blog-image\" loading=\"lazy\" />"
     | none => "") ++
    "<div class=\"blog-content\">" ++
    "<h3 class=\"blog-title\">" ++ jsInterp item.title ++ "</h3>" ++
    "<p class=\"blog-excerpt\">" ++ excerpt (jsOrStr item.content "") ++ "...</p>" ++
    "<div class=\"blog-meta\">" ++
    "<span class=\"blog-author\">By " ++ jsOrStr item.author "Unknown" ++ "</span>" ++
    "<span class=\"blog-category\">" ++ jsOrStr item.category "General" ++ "</span>" ++
    readingTimeSpan item ++
    "<time class=\"blog-date\">" ++ fmtDate item.published_date ++ "</time>" ++
    "</div></div></article>"

/-- The final `innerHTML` of the list container after `render`. -/
def renderHTML (fmtDate : Option String → String) (filteredItems : List Blog)
    (page perPage : Nat) : String :=
  let slice := renderSlice filteredItems page perPage
  if slice.length = 0 then
    "<p class=\"no-results\">No blogs found matching your criteria.</p>"
  else String.join (slice.map (blogCard fmtDate))

/-- A JavaScript array value is a reference into a heap of array contents;
`heapGet` dereferences (out-of-range reads give the empty array). -/
def heapGet (h : List (List Blog)) (r : Nat) : List Blog := (h[r]?).getD []

/-- The fields of a `BlogList` instance the list pipeline touches:
`this.items` and `this.filteredItems` are array references into `heap`. -/
structure BlogListState where
  itemsRef : Nat
  filteredItemsRef : Nat
  page : Nat
  perPage : Nat
  heap : List (List Blog)

/-- One filter step on the working array: when the guard is truthy,
`Array.prototype.filter` allocates a fresh array and `workingList` is
rebound to it; otherwise heap and reference are unchanged. -/
def filterStepH (p : Blog → Bool) (active : Bool)
    (s : List (List Blog) × Nat) : List (List Blog) × Nat :=
  if active then (s.1 ++ [(heapGet s.1 s.2).filter p], s.1.length) else s

/-- The sort step on the working array: `workingList.sort(...)` mutates the
array at the working reference in place. -/
def sortStepH (parse : String → Option Int) (sortValue : String)
    (s : List (List Blog) × Nat) : List (List Blog) × Nat :=
  if sortValue ≠ "" then
    (s.1.set s.2 (jsSort (blogCmp parse sortValue) (heapGet s.1 s.2)), s.2)
  else s

/-- The three pipeline steps of `applyFiltersAndSorting` on (heap, working
reference) pairs, in source order. -/
def workingPipeline (parse : String → Option Int)
    (searchValue filterValue sortValue : String)
    (s : List (List Blog) × Nat) : List (List Blog) × Nat :=
  sortStepH parse sortValue
    (filterStepH (categoryKeep filterValue) (filterValue != "")
      (filterStepH (searchKeep (jsToLower searchValue)) (jsToLower searchValue != "") s))

/-- `applyFiltersAndSorting` with explicit array aliasing:
`let workingList = [...this.items]` copies the master array into a fresh
cell, the pipeline runs on the working reference, and the result reference
is stored into `this.filteredItems`. -/
def applyFiltersAndSortingH (parse : String → Option Int) (st : BlogListState)
    (searchValue filterValue sortValue : String) : BlogListState :=
  let s0 : List (List Blog) × Nat :=
    (st.heap ++ [heapGet st.heap st.itemsRef], st.heap.length)
  { st with
    heap := (workingPipeline parse searchValue filterValue sortValue s0).1
    filteredItemsRef := (workingPipeline parse searchValue filterValue sortValue s0).2 }

/-- `onControlChange`: reset `this.page` to 1, then re-derive the view. -/
def onControlChangeH (parse : String → Option Int) (st : BlogListState)
    (searchValue filterValue sortValue : String) : BlogListState :=
  applyFiltersAndSortingH parse { st with page := 1 }
    searchValue filterValue sortValue

/-- The pieces of the DOM that `init`'s control flow touches. -/
structure UIState where
  loadingHidden : Bool
  errorHidden : Bool
  errorText : String
  listHTML : String
deriving DecidableEq

/-- `showLoading`: remove the `hidden` class from the loading indicator. -/
def showLoading (ui : UIState) : UIState := { ui with loadingHidden := false }

/-- `hideLoading`: add the `hidden` class to the loading indicator. -/
def hideLoading (ui : UIState) : UIState := { ui with loadingHidden := true }

/-- `showError`: reveal the error container with the formatted message, clear
the list markup, and hide the loading indicator. -/
def showError (msg : String) (ui : UIState) : UIState :=
  hideLoading
    { ui with
      errorHidden := false
      errorText := "Error: " ++ msg ++ ". Please check the console for details."
      listHTML := "" }

/-- Outcome of `res.json()` on a received response. -/
inductive JsonBody where
  | parseError (msg : String)
  | nonArray
  | arrayOf (items : List Blog)

/-- Outcome of `fetch(this.apiUrl)`: transport failure or a response. -/
inductive FetchResult where
  | networkError (msg : String)
  | response (status : Nat) (body : JsonBody)

/-- `Response.ok`: status in the inclusive range 200–299. -/
def statusOk (status : Nat) : Bool := 200 ≤ status && status ≤ 299

/-- `fetchData`: every error of the inner `try` is re-thrown wrapped as
`Data loading failed: <message>`; a non-ok status raises
`Failed to fetch blogs (Status: <status>)`, a non-array body raises
`Unexpected API response structure`. -/
def fetchData : FetchResult → Except String (List Blog)
  | .networkError msg => .error ("Data loading failed: " ++ msg)
  | .response status body =>
    if statusOk status then
      match body with
      | .parseError msg => .error ("Data loading failed: " ++ msg)
      | .nonArray => .error ("Data loading failed: " ++ "Unexpected API response structure")
      | .arrayOf items => .ok items
    else
      .error ("Data loading failed: "
        ++ ("Failed to fetch blogs (Status: " ++ toString status ++ ")"))

/-- `init`: show the loading indicator, fetch, derive and render on success,
`showError` on any failure, and hide the indicator in the `finally` block. -/
def init (parse : String → Option Int) (fmtDate : Option String → String)
    (fr : FetchResult) (searchValue filterValue sortValue : String)
    (page perPage : Nat) (ui : UIState) : UIState :=
  let ui := showLoading ui
  match fetchData fr with
  | .ok items =>
    let view := applyFiltersAndSorting parse items searchValue filterValue sortValue
    hideLoading { ui with listHTML := renderHTML fmtDate view page perPage }
  | .error msg => hideLoading (showError msg ui)

/-- The search predicate as the specification words it: the record's title,
case-folded, contains the case-folded search term as a substring. -/
def specSearchKeep (searchTerm : String) (blog : Blog) : Bool :=
  jsIncludes (jsToLower (jsOrStr blog.title "")) (jsToLower searchTerm)

/-- The category predicate as the specification words it: exact,
case-sensitive equality, with the empty category keeping everything. -/
def specCategoryKeep (category : String) (blog : Blog) : Bool :=
  category == "" || blog.category == some category

/-- A date-parser instance for concrete evaluation: the host parser
restricted to the two ISO dates the examples use. -/
def demoParse (s : String) : Option Int :=
  if s = "2024-01-01" then some 1704067200000
  else if s = "2024-01-02" then some 1704153600000
  else none

/-- Example record with a parseable published date. -/
def demoValid : Blog :=
  ⟨some "Valid", none, none, none, some "2024-01-01", none, none⟩

/-- Example record with a newer parseable published date. -/
def demoValid2 : Blog :=
  ⟨some "Newer", none, none, none, some "2024-01-02", none, none⟩

/-- Example record whose published date does not parse. -/
def demoInvalid : Blog :=
  ⟨some "Broken", none, none, none, some "not-a-date", none, none⟩

/-- Example record whose reading time is present but zero. -/
def demoZero : Blog :=
  ⟨some "Zero", none, none, some 0, none, none, none⟩

/-- Example record with a seven-minute reading time. -/
def demoSeven : Blog :=
  ⟨some "Seven", none, none, some 7, none, none, none⟩

/-- Example component state: one master array at heap cell 0. -/
def demoState : BlogListState :=
  ⟨0, 0, 1, 10, [[demoValid, demoValid2]]⟩

/-- The empty needle is a substring of every haystack. -/
theorem containsSub_empty (hay : List Char) : containsSub hay [] = true := by
  cases hay <;> simp [containsSub, List.isPrefixOf]

/-- JavaScript `includes('')` is always true. -/
theorem jsIncludes_empty (s : String) : jsIncludes s "" = true :=
  containsSub_empty s.data

/-- Inserting an element permutes consing it. -/
theorem jsInsert_perm (cmp : α → α → Int) (a : α) (l : List α) :
    List.Perm (jsInsert cmp a l) (a :: l) := by
  induction l with
  | nil => exact List.Perm.refl _
  | cons b t ih =>
    by_cases h : cmp a b ≤ 0
    · simp only [jsInsert, if_pos h]
      exact List.Perm.refl _
    · simp only [jsInsert, if_neg h]
      exact (ih.cons b).trans (List.Perm.swap a b t)

/-- The modelled sort permutes its input. -/
theorem jsSort_perm (cmp : α → α → Int) (l : List α) :
    List.Perm (jsSort cmp l) l := by
  induction l with
  | nil => exact List.Perm.refl _
  | cons a t ih =>
    exact (jsInsert_perm cmp a (jsSort cmp t)).trans (ih.cons a)

/-- Membership is preserved by the modelled sort. -/
theorem mem_jsSort (cmp : α → α → Int) (l : List α) (x : α) :
    x ∈ jsSort cmp l ↔ x ∈ l :=
  (jsSort_perm cmp l).mem_iff

/-- Inserting into a list sorted for `cmp` keeps it sorted, assuming the
comparator is total and transitive on the elements involved. -/
theorem jsInsert_pairwise (cmp : α → α → Int) (a : α) (l : List α)
    (hl : l.Pairwise fun x y => cmp x y ≤ 0)
    (htot : ∀ b ∈ l, cmp a b ≤ 0 ∨ cmp b a ≤ 0)
    (htr : ∀ b ∈ l, ∀ c ∈ l, cmp a b ≤ 0 → cmp b c ≤ 0 → cmp a c ≤ 0) :
    (jsInsert cmp a l).Pairwise fun x y => cmp x y ≤ 0 := by
  induction l with
  | nil => simp [jsInsert]
  | cons b t ih =>
    rcases List.pairwise_cons.mp hl with ⟨hb, ht⟩
    by_cases h : cmp a b ≤ 0
    · simp only [jsInsert, if_pos h]
      refine List.pairwise_cons.mpr ⟨?_, hl⟩
      intro y hy
      rcases List.mem_cons.mp hy with rfl | hy
      · exact h
      · exact htr b (List.mem_cons_self b t) y (List.mem_cons_of_mem _ hy) h (hb y hy)
    · simp only [jsInsert, if_neg h]
      refine List.pairwise_cons.mpr ⟨?_, ?_⟩
      · intro y hy
        have hy' := (jsInsert_perm cmp a t).mem_iff.mp hy
        rcases List.mem_cons.mp hy' with rfl | hy'
        · rcases htot b (List.mem_cons_self b t) with h1 | h1
          · exact absurd h1 h
          · exact h1
        · exact hb y hy'
      · exact ih ht (fun c hc => htot c (List.mem_cons_of_mem _ hc))
          (fun c hc d hd => htr c (List.mem_cons_of_mem _ hc) d (List.mem_cons_of_mem _ hd))

/-- The modelled sort orders its output for any comparator that is total and
transitive on the input's elements. -/
theorem jsSort_pairwise (cmp : α → α → Int) (l : List α)
    (htot : ∀ a ∈ l, ∀ b ∈ l, cmp a b ≤ 0 ∨ cmp b a ≤ 0)
    (htr : ∀ a ∈ l, ∀ b ∈ l, ∀ c ∈ l, cmp a b ≤ 0 → cmp b c ≤ 0 → cmp a c ≤ 0) :
    (jsSort cmp l).Pairwise fun x y => cmp x y ≤ 0 := by
  induction l with
  | nil => simp [jsSort]
  | cons a t ih =>
    have hmem : ∀ {x}, x ∈ jsSort cmp t → x ∈ a :: t := fun hx =>
      List.mem_cons_of_mem _ ((jsSort_perm cmp t).mem_iff.mp hx)
    refine jsInsert_pairwise cmp a (jsSort cmp t) ?_ ?_ ?_
    · exact ih
        (fun x hx y hy => htot x (List.mem_cons_of_mem _ hx) y (List.mem_cons_of_mem _ hy))
        (fun x hx y hy z hz => htr x (List.mem_cons_of_mem _ hx) y (List.mem_cons_of_mem _ hy)
          z (List.mem_cons_of_mem _ hz))
    · exact fun b hb => htot a (List.mem_cons_self a t) b (hmem hb)
    · exact fun b hb c hc => htr a (List.mem_cons_self a t) b (hmem hb) c (hmem hc)

/-- Stability on all-tie inputs: when every comparison within the list yields
a tie, the modelled sort returns the list unchanged. -/
theorem jsSort_of_ties (cmp : α → α → Int) (l : List α)
    (h : ∀ a ∈ l, ∀ b ∈ l, cmp a b ≤ 0) : jsSort cmp l = l := by
  induction l with
  | nil => rfl
  | cons a t ih =>
    have ht : jsSort cmp t = t := ih
      (fun x hx y hy => h x (List.mem_cons_of_mem _ hx) y (List.mem_cons_of_mem _ hy))
    simp only [jsSort, ht]
    cases t with
    | nil => rfl
    | cons b t' =>
      simp only [jsInsert,
        if_pos (h a (List.mem_cons_self a _) b (List.mem_cons_of_mem _ (List.mem_cons_self b t')))]

/-- Reads strictly inside the old heap are unaffected by appended cells. -/
theorem heapGet_append_lt (h t : List (List Blog)) (i : Nat) (hi : i < h.length) :
    heapGet (h ++ t) i = heapGet h i := by
  unfold heapGet
  rw [List.getElem?_append, if_pos hi]

/-- Reading a freshly appended cell returns its contents. -/
theorem heapGet_append_self (h : List (List Blog)) (a : List Blog) :
    heapGet (h ++ [a]) h.length = a := by
  unfold heapGet
  rw [List.getElem?_append]
  simp

/-- Writing one cell leaves every other cell unchanged. -/
theorem heapGet_set_ne (h : List (List Blog)) (i j : Nat) (a : List Blog)
    (hij : i ≠ j) : heapGet (h.set j a) i = heapGet h i := by
  unfold heapGet
  rw [List.getElem?_set_ne]
  omega

/-- A filter step only allocates fresh cells: reads below the working
reference are unchanged, and the working reference stays in range. -/
theorem filterStepH_frame (p : Blog → Bool) (active : Bool)
    (s : List (List Blog) × Nat) (i : Nat) (hi : i < s.2) (hs : s.2 ≤ s.1.length) :
    heapGet (filterStepH p active s).1 i = heapGet s.1 i
      ∧ i < (filterStepH p active s).2
      ∧ (filterStepH p active s).2 ≤ (filterStepH p active s).1.length := by
  by_cases h : active = true
  · unfold filterStepH
    rw [if_pos h]
    refine ⟨heapGet_append_lt _ _ _ (lt_of_lt_of_le hi hs), lt_of_lt_of_le hi hs, ?_⟩
    simp
  · unfold filterStepH
    rw [if_neg h]
    exact ⟨rfl, hi, hs⟩

/-- The in-place sort writes only the working cell. -/
theorem sortStepH_frame (parse : String → Option Int) (sortValue : String)
    (s : List (List Blog) × Nat) (i : Nat) (hi : i < s.2) :
    heapGet (sortStepH parse sortValue s).1 i = heapGet s.1 i := by
  by_cases h : sortValue ≠ ""
  · unfold sortStepH
    rw [if_pos h]
    exact heapGet_set_ne _ _ _ _ (by omega)
  · unfold sortStepH
    rw [if_neg h]

/-- The whole working pipeline never touches cells below the initial working
reference. -/
theorem workingPipeline_frame (parse : String → Option Int)
    (searchValue filterValue sortValue : String)
    (s : List (List Blog) × Nat) (i : Nat) (hi : i < s.2) (hs : s.2 ≤ s.1.length) :
    heapGet (workingPipeline parse searchValue filterValue sortValue s).1 i
      = heapGet s.1 i := by
  obtain ⟨e1, hi1, hs1⟩ := filterStepH_frame (searchKeep (jsToLower searchValue))
    (jsToLower searchValue != "") s i hi hs
  obtain ⟨e2, hi2, hs2⟩ := filterStepH_frame (categoryKeep filterValue)
    (filterValue != "") _ i hi1 hs1
  have e3 := sortStepH_frame parse sortValue _ i hi2
  unfold workingPipeline
  rw [e3, e2, e1]

/-- With sortKey 'date' the selected comparator is the date comparator. -/
theorem blogCmp_date (parse : String → Option Int) (a b : Blog) :
    blogCmp parse "date" a b = dateCmp parse a b := by
  unfold blogCmp
  rw [if_pos rfl]

/-- Value of the date comparator on two parseable dates. -/
theorem dateCmp_some (parse : String → Option Int) (a b : Blog) (ta tb : Int)
    (ha : jsDate parse a = some ta) (hb : jsDate parse b = some tb) :
    dateCmp parse a b = tb - ta := by
  unfold dateCmp
  rw [ha, hb]

/-- Any comparison involving an unparseable date is a tie: the NaN produced
by the subtraction is coerced to 0 by `SortCompare`. -/
theorem dateCmp_none (parse : String → Option Int) (a b : Blog)
    (h : jsDate parse a = none) :
    dateCmp parse a b = 0 ∧ dateCmp parse b a = 0 := by
  unfold dateCmp
  rw [h]
  constructor
  · cases hb : jsDate parse b <;> rfl
  · rfl

/-- C1: counterexample — under sortKey 'date' a record with an unparseable
published date is not placed after the records with valid dates: its
comparisons yield NaN, coerced to 0, so the stable sort leaves it in front
of a valid-dated record. -/
theorem c1_date_sort_counterexample :
    applyFiltersAndSorting demoParse [demoInvalid, demoValid] "" "" "date"
        = [demoInvalid, demoValid]
      ∧ jsDate demoParse demoInvalid = none
      ∧ (jsDate demoParse demoValid).isSome = true := by
  decide

/-- C1 (amended): under sortKey 'date' every comparison involving an
unparseable published date is a tie (the comparator's NaN result is coerced
to 0 by `SortCompare`), so the comparator constrains only pairs of
parseable dates; a view whose records all have parseable dates is ordered
descending by parsed timestamp (newest first); a view in which every pair
of records ties — in particular one with no parseable date — is returned
unchanged; and in a mixed view no descending order of the parseable
records is guaranteed: the view [oldest, unparseable, newest] is returned
unchanged, its parseable pair left ascending, so unparseable records are in
particular not moved after the valid ones. -/
theorem c1_date_sort_amended (parse : String → Option Int) (l tl : List Blog)
    (hval : ∀ b ∈ l, (jsDate parse b).isSome = true)
    (hties : ∀ a ∈ tl, ∀ b ∈ tl, blogCmp parse "date" a b = 0) :
    ((sortStep parse l "date").Pairwise fun a b =>
        (jsDate parse b).getD 0 ≤ (jsDate parse a).getD 0)
      ∧ (∀ a b : Blog, jsDate parse a = none →
          blogCmp parse "date" a b = 0 ∧ blogCmp parse "date" b a = 0)
      ∧ sortStep parse tl "date" = tl
      ∧ sortStep demoParse [demoValid, demoInvalid, demoValid2] "date"
          = [demoValid, demoInvalid, demoValid2] := by
  refine ⟨?_, ?_, ?_, by decide⟩
  · unfold sortStep
    rw [if_pos (by decide)]
    have hp := jsSort_pairwise (blogCmp parse "date") l
      (by
        intro a ha b hb
        obtain ⟨ta, hta⟩ := Option.isSome_iff_exists.mp (hval a ha)
        obtain ⟨tb, htb⟩ := Option.isSome_iff_exists.mp (hval b hb)
        rw [blogCmp_date, blogCmp_date, dateCmp_some parse a b ta tb hta htb,
          dateCmp_some parse b a tb ta htb hta]
        omega)
      (by
        intro a ha b hb c hc h1 h2
        obtain ⟨ta, hta⟩ := Option.isSome_iff_exists.mp (hval a ha)
        obtain ⟨tb, htb⟩ := Option.isSome_iff_exists.mp (hval b hb)
        obtain ⟨tc, htc⟩ := Option.isSome_iff_exists.mp (hval c hc)
        rw [blogCmp_date, dateCmp_some parse a b ta tb hta htb] at h1
        rw [blogCmp_date, dateCmp_some parse b c tb tc htb htc] at h2
        rw [blogCmp_date, dateCmp_some parse a c ta tc hta htc]
        omega)
    refine List.Pairwise.imp_of_mem ?_ hp
    intro a b ha hb hcmp
    have ha' := hval a ((mem_jsSort _ _ _).mp ha)
    have hb' := hval b ((mem_jsSort _ _ _).mp hb)
    obtain ⟨ta, hta⟩ := Option.isSome_iff_exists.mp ha'
    obtain ⟨tb, htb⟩ := Option.isSome_iff_exists.mp hb'
    rw [blogCmp_date, dateCmp_some parse a b ta tb hta htb] at hcmp
    rw [hta, htb]
    simpa using by omega
  · intro a b ha
    rw [blogCmp_date, blogCmp_date]
    exact dateCmp_none parse a b ha
  · unfold sortStep
    rw [if_pos (by decide)]
    exact jsSort_of_ties _ _ (fun a ha b hb => le_of_eq (hties a ha b hb))

/-- C1 witness: a two-record all-valid view sorts descending, an
all-unparseable view is left unchanged, and so is the mixed
[oldest, unparseable, newest] view. -/
theorem c1_date_sort_amended_witness :
    (∀ b ∈ [demoValid, demoValid2], (jsDate demoParse b).isSome = true)
      ∧ (∀ a ∈ [demoInvalid, demoInvalid], ∀ b ∈ [demoInvalid, demoInvalid],
          blogCmp demoParse "date" a b = 0)
      ∧ (((sortStep demoParse [demoValid, demoValid2] "date").Pairwise fun a b =>
            (jsDate demoParse b).getD 0 ≤ (jsDate demoParse a).getD 0)
          ∧ (∀ a b : Blog, jsDate demoParse a = none →
              blogCmp demoParse "date" a b = 0 ∧ blogCmp demoParse "date" b a = 0)
          ∧ sortStep demoParse [demoInvalid, demoInvalid] "date"
              = [demoInvalid, demoInvalid]
          ∧ sortStep demoParse [demoValid, demoInvalid, demoValid2] "date"
              = [demoValid, demoInvalid, demoValid2]) :=
  ⟨by decide, by decide,
    c1_date_sort_amended demoParse [demoValid, demoValid2] [demoInvalid, demoInvalid]
      (by decide) (by decide)⟩

/-- C2: counterexample — after a load failing with HTTP 500 the error surface
does not show the claimed string, because `fetchData` re-throws the status
failure wrapped as `Data loading failed: ...`. -/
theorem c2_http500_counterexample :
    (init demoParse (fun _ => "") (.response 500 (.arrayOf [])) "" "" "" 1 10
        ⟨true, true, "", ""⟩).errorText
      ≠ "Error: Failed to fetch blogs (Status: 500). Please check the console for details." := by
  decide

/-- C2 (amended): every load that fails with HTTP 500 ends with the error
container revealed showing "Error: Data loading failed: Failed to fetch
blogs (Status: 500). Please check the console for details.", the list area
cleared, and the loading indicator hidden. -/
theorem c2_http500_amended (parse : String → Option Int)
    (fmtDate : Option String → String) (body : JsonBody)
    (searchValue filterValue sortValue : String) (page perPage : Nat) (ui : UIState) :
    init parse fmtDate (.response 500 body) searchValue filterValue sortValue page perPage ui
      = { loadingHidden := true
          errorHidden := false
          errorText := "Error: Data loading failed: Failed to fetch blogs (Status: 500). Please check the console for details."
          listHTML := "" } := by
  rfl

/-- C3: the search step of the derivation keeps exactly the records whose
case-folded title contains the case-folded search term as a substring, and
the empty search term keeps every record. -/
theorem c3_search_filter (items : List Blog) (searchValue : String) :
    searchStep items searchValue = items.filter (specSearchKeep searchValue)
      ∧ searchStep items "" = items := by
  constructor
  · by_cases h : jsToLower searchValue = ""
    · simp only [searchStep]
      rw [if_neg (not_not_intro h)]
      symm
      refine List.filter_eq_self.mpr fun b _ => ?_
      unfold specSearchKeep
      rw [h]
      exact jsIncludes_empty _
    · simp only [searchStep]
      rw [if_pos h]
      rfl
  · rfl

/-- C4: the category-filter step keeps exactly the records whose category is
strictly equal to the selected category, and the empty selection keeps every
record. -/
theorem c4_category_filter (items : List Blog) (filterValue : String) :
    categoryStep items filterValue = items.filter (specCategoryKeep filterValue)
      ∧ categoryStep items "" = items := by
  constructor
  · by_cases h : filterValue = ""
    · subst h
      unfold categoryStep
      rw [if_neg (not_not_intro rfl)]
      symm
      refine List.filter_eq_self.mpr fun b _ => ?_
      rfl
    · unfold categoryStep
      rw [if_pos h]
      refine List.filter_congr fun b _ => ?_
      unfold categoryKeep specCategoryKeep
      rw [beq_eq_false_iff_ne.mpr h, Bool.false_or]
  · unfold categoryStep
    rw [if_neg (not_not_intro rfl)]

/-- C5: for a page number of at least 1, the displayed slice is the first
page times perPage items of the derived view — a prefix whose length is the
minimum of perPage times page and the view's length. -/
theorem c5_slice_is_prefix (v : List Blog) (n p : Nat) (h : 1 ≤ n) :
    renderSlice v n p = v.take (n * p)
      ∧ (renderSlice v n p).length = min (p * n) v.length
      ∧ renderSlice v n p ++ v.drop (n * p) = v := by
  refine ⟨rfl, ?_, List.take_append_drop _ _⟩
  unfold renderSlice
  rw [List.length_take, Nat.mul_comm]

/-- C5 witness at page 2, page size 3, on a five-record view. -/
theorem c5_slice_is_prefix_witness :
    1 ≤ 2
      ∧ (renderSlice [demoValid, demoValid2, demoInvalid, demoZero, demoSeven] 2 3
            = [demoValid, demoValid2, demoInvalid, demoZero, demoSeven].take (2 * 3)
          ∧ (renderSlice [demoValid, demoValid2, demoInvalid, demoZero, demoSeven] 2 3).length
              = min (3 * 2) [demoValid, demoValid2, demoInvalid, demoZero, demoSeven].length
          ∧ renderSlice [demoValid, demoValid2, demoInvalid, demoZero, demoSeven] 2 3
              ++ [demoValid, demoValid2, demoInvalid, demoZero, demoSeven].drop (2 * 3)
              = [demoValid, demoValid2, demoInvalid, demoZero, demoSeven]) :=
  ⟨by decide, c5_slice_is_prefix [demoValid, demoValid2, demoInvalid, demoZero, demoSeven]
    2 3 (by decide)⟩

/-- C6: pagination is monotone — the slice for page n is exactly the first
|slice n| elements of the slice for page n+1. -/
theorem c6_pagination_monotone (v : List Blog) (n p : Nat) :
    renderSlice v n p
      = (renderSlice v (n + 1) p).take (renderSlice v n p).length := by
  unfold renderSlice
  rw [List.length_take, List.take_take, List.take_eq_take]
  have hnp : n * p ≤ (n + 1) * p := Nat.mul_le_mul_right p (Nat.le_succ n)
  omega

/-- C7: every control change resets the page counter to 1 before the view is
re-derived, so the page is 1 after `onControlChange` in every state. -/
theorem c7_page_resets (parse : String → Option Int) (st : BlogListState)
    (searchValue filterValue sortValue : String) :
    (onControlChangeH parse st searchValue filterValue sortValue).page = 1 := rfl

/-- C8: deriving the view never mutates the master collection — the contents
of the array `this.items` references are identical before and after
`applyFiltersAndSorting`, for every combination of controls, including when
the sort step runs. -/
theorem c8_master_unchanged (parse : String → Option Int) (st : BlogListState)
    (searchValue filterValue sortValue : String)
    (h : st.itemsRef < st.heap.length) :
    heapGet (applyFiltersAndSortingH parse st searchValue filterValue sortValue).heap
        st.itemsRef
      = heapGet st.heap st.itemsRef := by
  show heapGet (workingPipeline parse searchValue filterValue sortValue
      (st.heap ++ [heapGet st.heap st.itemsRef], st.heap.length)).1 st.itemsRef
    = heapGet st.heap st.itemsRef
  rw [workingPipeline_frame parse searchValue filterValue sortValue _ st.itemsRef h (by simp)]
  exact heapGet_append_lt _ _ _ h

/-- C8 witness on a concrete one-cell heap with the date sort active. -/
theorem c8_master_unchanged_witness :
    demoState.itemsRef < demoState.heap.length
      ∧ heapGet (applyFiltersAndSortingH demoParse demoState "" "" "date").heap
            demoState.itemsRef
          = heapGet demoState.heap demoState.itemsRef :=
  ⟨by decide, c8_master_unchanged demoParse demoState "" "" "date" (by decide)⟩

/-- C9: the loading indicator is shown before the load begins and ends hidden
on every exit path of `init` — success, transport failure, bad status, or
malformed body. -/
theorem c9_loading_always_hidden (parse : String → Option Int)
    (fmtDate : Option String → String) (fr : FetchResult)
    (searchValue filterValue sortValue : String) (page perPage : Nat) (ui : UIState) :
    (init parse fmtDate fr searchValue filterValue sortValue page perPage ui).loadingHidden
        = true
      ∧ (showLoading ui).loadingHidden = false := by
  refine ⟨?_, rfl⟩
  unfold init
  cases hfd : fetchData fr with
  | ok items => rfl
  | error msg => rfl

/-- C10: a record whose reading time is present but 0 renders with the
display default — "5 min read" — because 0 is falsy in the template's
`item.reading_time || 5`, while the reading-time comparator still gives the
same record sort key 0. -/
theorem c10_zero_reading_time (parse : String → Option Int) (b c : Blog)
    (h : b.reading_time = some 0) :
    readingTimeSpan b = "<span class=\"blog-reading-time\">5 min read</span>"
      ∧ jsOrInt b.reading_time 0 = 0
      ∧ blogCmp parse "reading_time" b c = 0 - jsOrInt c.reading_time 0 := by
  refine ⟨?_, ?_, ?_⟩
  · unfold readingTimeSpan
    rw [h]
    rfl
  · rw [h]
    rfl
  · unfold blogCmp
    rw [if_neg (by decide), if_pos rfl, h]
    rfl

/-- C10 witness: a concrete zero-reading-time record against a seven-minute
one. -/
theorem c10_zero_reading_time_witness :
    demoZero.reading_time = some 0
      ∧ (readingTimeSpan demoZero = "<span class=\"blog-reading-time\">5 min read</span>"
          ∧ jsOrInt demoZero.reading_time 0 = 0
          ∧ blogCmp demoParse "reading_time" demoZero demoSeven
              = 0 - jsOrInt demoSeven.reading_time 0) :=
  ⟨by decide, c10_zero_reading_time demoParse demoZero demoSeven (by decide)⟩

/-- A filter step keeps the working reference inside the heap. -/
theorem filterStepH_ref_lt (p : Blog → Bool) (active : Bool)
    (s : List (List Blog) × Nat) (h : s.2 < s.1.length) :
    (filterStepH p active s).2 < (filterStepH p active s).1.length := by
  by_cases ha : active = true
  · unfold filterStepH
    rw [if_pos ha]
    simp
  · unfold filterStepH
    rw [if_neg ha]
    exact h

/-- Contents of the working array after a filter step. -/
theorem filterStepH_contents (p : Blog → Bool) (active : Bool)
    (s : List (List Blog) × Nat) :
    heapGet (filterStepH p active s).1 (filterStepH p active s).2
      = if active then (heapGet s.1 s.2).filter p else heapGet s.1 s.2 := by
  by_cases ha : active = true
  · unfold filterStepH
    rw [if_pos ha, if_pos ha]
    exact heapGet_append_self _ _
  · unfold filterStepH
    rw [if_neg ha, if_neg ha]

/-- Contents of the working array after the in-place sort step. -/
theorem sortStepH_contents (parse : String → Option Int) (sortValue : String)
    (s : List (List Blog) × Nat) (hs : s.2 < s.1.length) :
    heapGet (sortStepH parse sortValue s).1 (sortStepH parse sortValue s).2
      = if sortValue ≠ "" then jsSort (blogCmp parse sortValue) (heapGet s.1 s.2)
        else heapGet s.1 s.2 := by
  by_cases h : sortValue ≠ ""
  · unfold sortStepH
    rw [if_pos h, if_pos h]
    unfold heapGet
    rw [List.getElem?_set_self (by exact hs)]
    rfl
  · unfold sortStepH
    rw [if_neg h, if_neg h]

/-- The aliasing-aware pipeline computes exactly the pure
`applyFiltersAndSorting` of the master array's contents: the array
`this.filteredItems` points to afterwards holds the derived view. -/
theorem applyFiltersAndSortingH_view (parse : String → Option Int)
    (st : BlogListState) (searchValue filterValue sortValue : String) :
    heapGet (applyFiltersAndSortingH parse st searchValue filterValue sortValue).heap
        (applyFiltersAndSortingH parse st searchValue filterValue sortValue).filteredItemsRef
      = applyFiltersAndSorting parse (heapGet st.heap st.itemsRef)
          searchValue filterValue sortValue := by
  show heapGet (workingPipeline parse searchValue filterValue sortValue
      (st.heap ++ [heapGet st.heap st.itemsRef], st.heap.length)).1
    (workingPipeline parse searchValue filterValue sortValue
      (st.heap ++ [heapGet st.heap st.itemsRef], st.heap.length)).2
    = applyFiltersAndSorting parse (heapGet st.heap st.itemsRef)
        searchValue filterValue sortValue
  have h0 : (st.heap ++ [heapGet st.heap st.itemsRef], st.heap.length).2
      < (st.heap ++ [heapGet st.heap st.itemsRef], st.heap.length).1.length := by
    simp
  have h1 := filterStepH_ref_lt (searchKeep (jsToLower searchValue))
    (jsToLower searchValue != "") _ h0
  have h2 := filterStepH_ref_lt (categoryKeep filterValue) (filterValue != "") _ h1
  unfold workingPipeline
  rw [sortStepH_contents parse sortValue _ h2, filterStepH_contents, filterStepH_contents,
    heapGet_append_self]
  unfold applyFiltersAndSorting searchStep categoryStep sortStep
  simp only [bne_iff_ne]
